import Mathlib

/-!
Shallow embedding of the WebMIDIKit metronome engine and its visualization
layer, together with theorems settling the specification claims.

Sources embedded:
* the `Metronome` class (lookahead beat scheduler, tick dispatcher,
  hit-accuracy evaluator);
* the `MetronomeUI` class (beat/hit marker lifecycle and per-frame updates).

Modelling conventions:
* clock timestamps and all other real-valued quantities are rationals (`ℚ`),
  with exact arithmetic standing in for IEEE doubles;
* the `while` loop of the scheduler is embedded with explicit fuel; the fuel
  passed by `scheduler` is proven sufficient, so the loop always terminates
  by its guard, exactly as the source loop does;
* `setTimeout`/`clearTimeout` are modelled by an explicit set of armed timers
  owned by the runtime (`Config.armed`), with fresh numeric handles.  A timer
  may fire at any time at or after its due time (the platform guarantees
  timers never fire early, but gives no upper bound on lateness);
* host callbacks (`onTick`, `onBeatScheduled`) are modelled as emitted
  `Out` events rather than arbitrary reentrant code.
-/

namespace WebMIDIKit

/-- Tick structure: one armed `setTimeout` closure created by `_scheduleTick`.
`id` is the timer handle (`tickId`), `beatNumber` the captured 0-based beat
index, and `time` the captured target timestamp. -/
structure Tick where
  id : ℕ
  beatNumber : ℕ
  time : ℚ
  deriving DecidableEq, Repr

/-- MState mirrors the mutable fields of the `Metronome` class.  `timerOn`
models whether `timerID` holds a live `setInterval` handle. -/
structure MState where
  tempo : ℚ
  timeSignature : ℕ
  isPlaying : Bool
  nextTickTime : ℚ
  currentBeat : ℕ
  scheduledTicks : List ℕ
  timerOn : Bool
  beatStartTime : ℚ
  deriving DecidableEq, Repr

/-- Config couples the metronome state with the runtime: the set of armed
timers, the fresh-handle counter, and whether the `AudioContext` is closed. -/
structure Config where
  m : MState
  armed : List Tick
  nextId : ℕ
  ctxClosed : Bool
  deriving DecidableEq, Repr

/-- Out events record the host callbacks invoked by the metronome:
`beatScheduled` for `onBeatScheduled` (with 1-based beat number, downbeat
flag, target time) and `tick` for `onTick` (tagged with the firing timer's
handle for bookkeeping). -/
inductive Out where
  | beatScheduled (beatNumber : ℕ) (isDownbeat : Bool) (targetTime : ℚ)
  | tick (tid : ℕ) (beatNumber : ℕ) (isDownbeat : Bool) (targetTime : ℚ)
  deriving DecidableEq, Repr

/-- MetronomeError: the error thrown by `start()` when the `AudioContext`
is closed. -/
inductive MetronomeError where
  | engineNotReady
  deriving DecidableEq, Repr

/-- scheduleAheadTime field: how far ahead to schedule audio, in seconds. -/
def scheduleAheadTime : ℚ := 1/10

/-- secondsPerBeat as computed in `_scheduler` and `start`. -/
def secondsPerBeat (tempo : ℚ) : ℚ := 60 / tempo

namespace Metronome

/-- schedLoop embeds the `while` loop of `_scheduler` with explicit fuel.
It returns the final `nextTickTime`, the final `currentBeat`, and the list
of `(time, beatNumber)` pairs passed to `_scheduleTick`, in order. -/
def schedLoop (tempo : ℚ) (ts : ℕ) (limit : ℚ) :
    ℕ → ℚ → ℕ → ℚ × ℕ × List (ℚ × ℕ)
  | 0, t, b => (t, b, [])
  | fuel + 1, t, b =>
    if t < limit then
      let r := schedLoop tempo ts limit fuel (t + secondsPerBeat tempo) ((b + 1) % ts)
      (r.1, r.2.1, (t, b) :: r.2.2)
    else
      (t, b, [])

/-- itersFor computes the number of iterations the scheduler loop performs:
the number of naturals `i` with `t + i * (60/tempo) < limit` (for positive
tempo). -/
def itersFor (tempo t limit : ℚ) : ℕ := (⌈(limit - t) * tempo / 60⌉).toNat

/-- passCore runs the `_scheduler` loop from state `(t, b)` at clock time
`now`, with fuel proven elsewhere to exceed the iteration count. -/
def passCore (tempo : ℚ) (ts : ℕ) (now t : ℚ) (b : ℕ) : ℚ × ℕ × List (ℚ × ℕ) :=
  schedLoop tempo ts (now + scheduleAheadTime) (itersFor tempo t (now + scheduleAheadTime) + 1) t b

/-- evict is the bounded-bookkeeping step of `_scheduleTick`: once more than
20 handles are tracked, the oldest is removed from the list (without being
cancelled). -/
def evict (l : List ℕ) : List ℕ := if 20 < l.length then l.tail else l

/-- scheduleTick embeds `_scheduleTick(time, beatNumber)` at clock time `now`:
if the tick is strictly in the future it arms a timeout (fresh handle),
records the handle in `scheduledTicks`, emits `onBeatScheduled`, and drops the
oldest recorded handle once more than 20 are tracked; otherwise it does
nothing (the tick is silently dropped). -/
def scheduleTick (now time : ℚ) (beatNumber : ℕ) (c : Config) : Config × List Out :=
  if 0 < time - now then
    let tid := c.nextId
    let pushed := c.m.scheduledTicks ++ [tid]
    let kept := evict pushed
    ({ c with
        m := { c.m with scheduledTicks := kept }
        armed := c.armed ++ [⟨tid, beatNumber, time⟩]
        nextId := c.nextId + 1 },
     [Out.beatScheduled (beatNumber + 1) (beatNumber == 0) time])
  else
    (c, [])

/-- dispatchAll folds `scheduleTick` over the beats produced by one scheduler
pass, accumulating emitted events in order. -/
def dispatchAll (now : ℚ) : List (ℚ × ℕ) → Config → Config × List Out
  | [], c => (c, [])
  | p :: ps, c =>
    let r := scheduleTick now p.1 p.2 c
    let rest := dispatchAll now ps r.1
    (rest.1, r.2 ++ rest.2)

/-- scheduler embeds one invocation of `_scheduler` at clock time `now`.
When no interval timer is armed the function is never invoked, modelled as a
no-op. -/
def scheduler (now : ℚ) (c : Config) : Config × List Out :=
  if c.m.timerOn then
    let r := passCore c.m.tempo c.m.timeSignature now c.m.nextTickTime c.m.currentBeat
    dispatchAll now r.2.2
      { c with m := { c.m with nextTickTime := r.1, currentBeat := r.2.1 } }
  else
    (c, [])

/-- stop embeds `stop()`: a no-op when not playing; otherwise it stops
playback, resets the beat counter, clears the interval timer, cancels every
armed timeout whose handle is recorded in `scheduledTicks`, and empties the
handle list. -/
def stop (c : Config) : Config :=
  if !c.m.isPlaying then c
  else
    { c with
        m := { c.m with
                isPlaying := false
                currentBeat := 0
                timerOn := false
                scheduledTicks := [] }
        armed := c.armed.filter (fun t => decide (t.id ∉ c.m.scheduledTicks)) }

/-- start embeds `start(delayFirstBeat)` at clock time `now`: a no-op when
already playing; an `engineNotReady` error (thrown before any field is
mutated) when the audio context is closed; otherwise it starts playback,
resets the beat counter, computes the initial `nextTickTime` (one beat ahead
when `delayFirstBeat`, emitting an immediate `onBeatScheduled(1, true, _)`),
records `beatStartTime`, and arms the interval timer. -/
def start (now : ℚ) (delayFirstBeat : Bool) (c : Config) :
    Except MetronomeError (Config × List Out) :=
  if c.m.isPlaying then .ok (c, [])
  else if c.ctxClosed then .error .engineNotReady
  else if delayFirstBeat then
    let firstBeatDelay := secondsPerBeat c.m.tempo
    let ntt := now + firstBeatDelay
    .ok ({ c with
            m := { c.m with
                    isPlaying := true
                    currentBeat := 0
                    nextTickTime := ntt
                    beatStartTime := now
                    timerOn := true } },
         [Out.beatScheduled 1 true ntt])
  else
    .ok ({ c with
            m := { c.m with
                    isPlaying := true
                    currentBeat := 0
                    nextTickTime := now
                    beatStartTime := now
                    timerOn := true } },
         [])

/-- setTempo embeds `setTempo(bpm)`: clamps to [30, 300] and stores. -/
def setTempo (bpm : ℚ) (c : Config) : Config :=
  { c with m := { c.m with tempo := max 30 (min 300 bpm) } }

/-- setTimeSignature embeds `setTimeSignature(beats)`: stores the new time
signature and resets the beat counter to 0. -/
def setTimeSignature (beats : ℕ) (c : Config) : Config :=
  { c with m := { c.m with timeSignature := beats, currentBeat := 0 } }

/-- fireTick models the runtime firing an armed timeout `tid` at clock time
`now`: only an armed timer can fire, never before its due time, and firing
disarms it and invokes `onTick` with the values captured in the closure. -/
def fireTick (tid : ℕ) (now : ℚ) (c : Config) : Config × List Out :=
  match c.armed.find? (fun t => t.id == tid) with
  | some t =>
    if t.time ≤ now then
      ({ c with armed := c.armed.filter (fun u => !(u.id == tid)) },
       [Out.tick t.id (t.beatNumber + 1) (t.beatNumber == 0) t.time])
    else
      (c, [])
  | none => (c, [])

/-- getHitAccuracy embeds `getHitAccuracy(hitTime)` from the source: 0 when
not playing; otherwise the triangular score based on the distance from the
nearest beat boundary, with `Math.round` modelled by `round` (half-up). -/
def getHitAccuracy (m : MState) (hitTime : ℚ) : ℚ :=
  if !m.isPlaying then 0
  else
    let beatDuration := 60 / m.tempo
    let elapsedTime := hitTime - m.beatStartTime
    let expectedBeatPosition := elapsedTime / beatDuration
    let nearestBeat := round expectedBeatPosition
    let distanceFromBeat := |expectedBeatPosition - (nearestBeat : ℚ)|
    max 0 (1 - distanceFromBeat * 2)

/-- getHitAccuracyRun embeds the `getHitAccuracy` method as a state
transformer on the full configuration, returning the score together with the
configuration after the call; the method body contains no assignment, so the
translation returns the fields it read, unchanged. -/
def getHitAccuracyRun (c : Config) (hitTime : ℚ) : ℚ × Config :=
  if !c.m.isPlaying then (0, c)
  else
    let beatDuration := 60 / c.m.tempo
    let elapsedTime := hitTime - c.m.beatStartTime
    let expectedBeatPosition := elapsedTime / beatDuration
    let nearestBeat := round expectedBeatPosition
    let distanceFromBeat := |expectedBeatPosition - (nearestBeat : ℚ)|
    (max 0 (1 - distanceFromBeat * 2), c)

/-- Ev enumerates the events of the single-threaded event loop driving the
metronome: a scheduler pass, the firing of an armed timeout, and the public
method calls. -/
inductive Ev where
  | pass (now : ℚ)
  | fire (tid : ℕ) (now : ℚ)
  | stopEv
  | startEv (now : ℚ) (delayFirstBeat : Bool)
  | setTempoEv (bpm : ℚ)
  | setTimeSigEv (beats : ℕ)
  deriving DecidableEq, Repr

/-- step runs one event.  A `start` that throws leaves the configuration
unchanged (the exception propagates to the caller before any mutation). -/
def step (e : Ev) (c : Config) : Config × List Out :=
  match e with
  | .pass now => scheduler now c
  | .fire tid now => fireTick tid now c
  | .stopEv => (stop c, [])
  | .startEv now d =>
    match start now d c with
    | .ok r => r
    | .error _ => (c, [])
  | .setTempoEv bpm => (setTempo bpm c, [])
  | .setTimeSigEv k => (setTimeSignature k c, [])

/-- run executes a list of events in order, concatenating emitted outputs. -/
def run : List Ev → Config → Config × List Out
  | [], c => (c, [])
  | e :: es, c =>
    let r := step e c
    let rest := run es r.1
    (rest.1, r.2 ++ rest.2)

/-- firedIds extracts the handles of the `onTick` dispatches in an output
trace. -/
def firedIds (outs : List Out) : List ℕ :=
  outs.filterMap (fun o =>
    match o with
    | .tick tid _ _ _ => some tid
    | _ => none)

/-- armedIds lists the handles of the currently armed timeouts. -/
def armedIds (c : Config) : List ℕ := c.armed.map (·.id)

end Metronome

/-- BeatMarker mirrors the marker objects created by
`MetronomeUI.addBeatMarker`. -/
structure BeatMarker where
  x : ℚ
  beatNumber : ℕ
  isDownbeat : Bool
  time : ℚ
  targetTime : ℚ
  deriving DecidableEq, Repr

/-- HitMarker mirrors the marker objects created by
`MetronomeUI.registerNoteHit`. -/
structure HitMarker where
  x : ℚ
  accuracy : ℚ
  opacity : ℚ
  deriving DecidableEq, Repr

/-- UIState mirrors the visualization-relevant mutable fields of
`MetronomeUI`; `width` models `canvas.width`. -/
structure UIState where
  beatMarkers : List BeatMarker
  hitMarkers : List HitMarker
  lastBeatTime : ℚ
  markerSpeed : ℚ
  hitLineX : ℚ
  width : ℚ
  firstBeat : Bool
  currentTempo : ℚ
  secondsPerBeat : ℚ
  deriving DecidableEq, Repr

namespace MetronomeUI

/-- initUI builds the constructor-time visualization state of `MetronomeUI`
for a canvas of the given width: no markers, `markerSpeed = 2`,
`hitLineX = 80`, `firstBeat = true`, tempo 120. -/
def initUI (width : ℚ) : UIState :=
  { beatMarkers := []
    hitMarkers := []
    lastBeatTime := 0
    markerSpeed := 2
    hitLineX := 80
    width := width
    firstBeat := true
    currentTempo := 120
    secondsPerBeat := 60 / 120 }

/-- addBeatMarker embeds `addBeatMarker(beatNumber, isDownbeat)` at clock
time `now`: the first marker after a (re)start is created at the hit line and
clears the `firstBeat` flag; later markers start at the right edge.  The new
marker's `targetTime` is one beat after `now`, and `lastBeatTime` records it. -/
def addBeatMarker (now : ℚ) (beatNumber : ℕ) (isDownbeat : Bool) (u : UIState) : UIState :=
  let startX := if u.firstBeat then u.hitLineX else u.width
  let fb := if u.firstBeat then false else u.firstBeat
  let marker : BeatMarker :=
    { x := startX
      beatNumber := beatNumber
      isDownbeat := isDownbeat
      time := now
      targetTime := now + u.secondsPerBeat }
  { u with
      beatMarkers := u.beatMarkers ++ [marker]
      firstBeat := fb
      lastBeatTime := marker.targetTime }

/-- updateBeatMarkers embeds the per-frame beat-marker update at clock time
`now`: each marker's `x` is recomputed from the interpolation progress
(unless the `firstBeat` flag is still set, in which case it is held at the
hit line), and markers with `x ≤ -30` are removed. -/
def updateBeatMarkers (now : ℚ) (u : UIState) : UIState :=
  let moved := u.beatMarkers.map (fun mk =>
    let timeLeft := mk.targetTime - now
    let totalTime := mk.targetTime - mk.time
    let progress := 1 - timeLeft / totalTime
    if u.firstBeat then
      { mk with x := u.hitLineX }
    else
      let distance := u.width - u.hitLineX
      { mk with x := u.width - progress * distance })
  { u with beatMarkers := moved.filter (fun mk => decide (-30 < mk.x)) }

/-- updateHitMarkers embeds the per-frame hit-marker update: each marker
moves left by `markerSpeed`, its opacity drops by 0.01 (clamped at 0), and
markers that are off-screen or fully faded are removed. -/
def updateHitMarkers (u : UIState) : UIState :=
  let moved := u.hitMarkers.map (fun mk =>
    let x := mk.x - u.markerSpeed
    let op0 := mk.opacity - 1/100
    let op := if op0 < 0 then 0 else op0
    { mk with x := x, opacity := op })
  { u with hitMarkers := moved.filter (fun mk => decide (-30 < mk.x) && decide (0 < mk.opacity)) }

/-- updateMarkerSpeed embeds `updateMarkerSpeed()`: pixels per frame (at
60 fps) so that a marker crosses the track in one beat at the current tempo. -/
def updateMarkerSpeed (u : UIState) : UIState :=
  let distanceToHitLine := u.width - u.hitLineX
  { u with markerSpeed := distanceToHitLine / (u.secondsPerBeat * 60) }

/-- registerNoteHit embeds `registerNoteHit(accuracyValue)` when the
visualization is active: a fresh hit marker appears at the hit line with full
opacity. -/
def registerNoteHit (accuracyValue : ℚ) (u : UIState) : UIState :=
  { u with hitMarkers := u.hitMarkers ++ [{ x := 80, accuracy := accuracyValue, opacity := 1 }] }

/-- handleTempoChange embeds `handleTempoChange()` for a requested tempo:
clamps to the UI range [40, 240], stores the tempo and seconds-per-beat, and
recalibrates the marker speed. -/
def handleTempoChange (tempo : ℚ) (u : UIState) : UIState :=
  let clamped := min 240 (max 40 tempo)
  updateMarkerSpeed { u with currentTempo := clamped, secondsPerBeat := 60 / clamped }

/-- resetVisualization embeds `resetVisualization(enabled)`: clears all
markers and, when enabling, re-arms the first-beat flag and recalibrates the
marker speed. -/
def resetVisualization (enabled : Bool) (u : UIState) : UIState :=
  let u1 := { u with beatMarkers := ([] : List BeatMarker), hitMarkers := ([] : List HitMarker) }
  if enabled then updateMarkerSpeed { u1 with firstBeat := true } else u1

end MetronomeUI

namespace Metronome

/-- processedRun concatenates, over a list of pass times, the beats handed to
`_scheduleTick` by each scheduler pass, threading `nextTickTime` and
`currentBeat` through exactly as `_scheduler` does. -/
def processedRun (tempo : ℚ) (ts : ℕ) : List ℚ → ℚ → ℕ → List (ℚ × ℕ)
  | [], _, _ => []
  | now :: rest, t, b =>
    let r := passCore tempo ts now t b
    r.2.2 ++ processedRun tempo ts rest r.1 r.2.1

lemma lt_itersFor_iff {tempo t limit : ℚ} (htempo : 0 < tempo) (i : ℕ) :
    i < itersFor tempo t limit ↔ t + (i : ℚ) * secondsPerBeat tempo < limit := by
  unfold itersFor secondsPerBeat
  rw [Int.lt_toNat, Int.lt_ceil,
    show (limit - t) * tempo / 60 = (limit - t) / (60 / tempo) from
      (div_div_eq_mul_div _ _ _).symm,
    lt_div_iff₀ (by positivity : (0 : ℚ) < 60 / tempo)]
  push_cast
  constructor <;> intro h <;> linarith

lemma itersFor_shift {tempo t limit : ℚ} (htempo : 0 < tempo)
    (h : 0 < itersFor tempo t limit) :
    itersFor tempo (t + secondsPerBeat tempo) limit = itersFor tempo t limit - 1 := by
  unfold itersFor secondsPerBeat at *
  have e : (limit - (t + 60 / tempo)) * tempo / 60 = (limit - t) * tempo / 60 - 1 := by
    field_simp
    ring
  rw [e, Int.ceil_sub_one]
  omega

/-- beatAt is the beat emitted at loop iteration `i` when the pass starts
from `nextTickTime = t` and `currentBeat = b`. -/
def beatAt (tempo : ℚ) (ts : ℕ) (t : ℚ) (b : ℕ) (i : ℕ) : ℚ × ℕ :=
  (t + (i : ℚ) * secondsPerBeat tempo, (b + i) % ts)

lemma schedLoop_eq {tempo limit : ℚ} {ts : ℕ} (htempo : 0 < tempo)
    (fuel : ℕ) :
    ∀ (t : ℚ) (b : ℕ), b < ts → itersFor tempo t limit < fuel →
      schedLoop tempo ts limit fuel t b =
        (t + (itersFor tempo t limit : ℚ) * secondsPerBeat tempo,
         (b + itersFor tempo t limit) % ts,
         (List.range (itersFor tempo t limit)).map (beatAt tempo ts t b)) := by
  induction fuel with
  | zero => intro t b _ hf; omega
  | succ fuel ih =>
    intro t b hb hf
    have hts : 0 < ts := by omega
    by_cases hguard : t < limit
    · have hK : 0 < itersFor tempo t limit :=
        (lt_itersFor_iff htempo 0).mpr (by simpa using hguard)
      have hshift := itersFor_shift htempo hK
      have hrec := ih (t + secondsPerBeat tempo) ((b + 1) % ts)
        (Nat.mod_lt _ hts) (by omega)
      simp only [schedLoop]
      rw [if_pos hguard, hrec]
      dsimp only
      refine congrArg₂ _ ?_ (congrArg₂ _ ?_ ?_)
      · rw [hshift]
        have hc : ((itersFor tempo t limit - 1 : ℕ) : ℚ) =
            (itersFor tempo t limit : ℚ) - 1 := by
          push_cast [hK]
          ring
        rw [hc]
        ring
      · rw [hshift, Nat.mod_add_mod]
        congr 1
        omega
      · rw [hshift,
          show itersFor tempo t limit = (itersFor tempo t limit - 1) + 1 by omega,
          List.range_succ_eq_map, List.map_cons, List.map_map]
        refine congrArg₂ _ ?_ ?_
        · simp [beatAt, Nat.mod_eq_of_lt hb]
        · refine List.map_congr_left fun i _ => ?_
          simp only [Function.comp_apply, beatAt]
          refine Prod.ext ?_ ?_
          · push_cast
            ring
          · simp only [Nat.mod_add_mod]
            congr 1
            omega
    · have hK0 : itersFor tempo t limit = 0 := by
        by_contra h0
        exact hguard (by simpa using (lt_itersFor_iff htempo 0).mp (by omega))
      simp only [schedLoop]
      rw [if_neg hguard, hK0]
      simp [Nat.mod_eq_of_lt hb]

lemma passCore_eq {tempo now t : ℚ} {ts b : ℕ} (htempo : 0 < tempo) (hb : b < ts) :
    passCore tempo ts now t b =
      (t + (itersFor tempo t (now + scheduleAheadTime) : ℚ) * secondsPerBeat tempo,
       (b + itersFor tempo t (now + scheduleAheadTime)) % ts,
       (List.range (itersFor tempo t (now + scheduleAheadTime))).map
         (beatAt tempo ts t b)) :=
  schedLoop_eq htempo _ t b hb (by omega)

lemma passCore_of_not_lt {tempo now t : ℚ} {ts b : ℕ}
    (h : ¬ t < now + scheduleAheadTime) :
    passCore tempo ts now t b = (t, b, []) := by
  unfold passCore
  simp only [schedLoop]
  rw [if_neg h]

lemma beatAt_shift {tempo : ℚ} {ts : ℕ} (t : ℚ) (b k i : ℕ) :
    beatAt tempo ts (t + (k : ℚ) * secondsPerBeat tempo) ((b + k) % ts) i =
      beatAt tempo ts t b (k + i) := by
  unfold beatAt
  refine Prod.ext ?_ ?_
  · push_cast
    ring
  · simp only [Nat.mod_add_mod]
    congr 1
    omega

lemma processedRun_eq {tempo : ℚ} {ts : ℕ} (htempo : 0 < tempo) (nows : List ℚ) :
    ∀ (t : ℚ) (b : ℕ), b < ts →
      ∃ K : ℕ, processedRun tempo ts nows t b = (List.range K).map (beatAt tempo ts t b) := by
  induction nows with
  | nil => intro t b _; exact ⟨0, rfl⟩
  | cons now rest ih =>
    intro t b hb
    have hts : 0 < ts := by omega
    have hpass := @passCore_eq tempo now t ts b htempo hb
    set k := itersFor tempo t (now + scheduleAheadTime) with hk
    obtain ⟨K2, hK2⟩ := ih (t + (k : ℚ) * secondsPerBeat tempo) ((b + k) % ts)
      (Nat.mod_lt _ hts)
    refine ⟨k + K2, ?_⟩
    simp only [processedRun, hpass]
    rw [hK2, List.range_add, List.map_append, List.map_map]
    refine congrArg₂ _ rfl ?_
    refine List.map_congr_left fun i _ => ?_
    simp only [Function.comp_apply]
    exact beatAt_shift t b k i

lemma passCore_succ {tempo now t : ℚ} {ts b : ℕ} (htempo : 0 < tempo)
    (h : t < now + scheduleAheadTime) :
    passCore tempo ts now t b =
      ((passCore tempo ts now (t + secondsPerBeat tempo) ((b + 1) % ts)).1,
       (passCore tempo ts now (t + secondsPerBeat tempo) ((b + 1) % ts)).2.1,
       (t, b) :: (passCore tempo ts now (t + secondsPerBeat tempo) ((b + 1) % ts)).2.2) := by
  have hK : 0 < itersFor tempo t (now + scheduleAheadTime) :=
    (lt_itersFor_iff htempo 0).mpr (by simpa using h)
  have hshift := itersFor_shift htempo hK
  unfold passCore
  rw [show itersFor tempo t (now + scheduleAheadTime) + 1 =
      (itersFor tempo (t + secondsPerBeat tempo) (now + scheduleAheadTime) + 1) + 1 by omega]
  simp [schedLoop, if_pos h]

end Metronome

/-- specHitAccuracy states the hit-accuracy formula in the specification's
words: 0 if not Running, otherwise
`max 0 (1 - 2 * |elapsed/beatDuration - round (elapsed/beatDuration)|)`
with `beatDuration = 60/tempo` and `elapsed = hitTime - measureStartTime`
(round-half-up).  It is compared against the source-derived
`Metronome.getHitAccuracy`. -/
def specHitAccuracy (m : MState) (hitTime : ℚ) : ℚ :=
  if m.isPlaying then
    let beatDuration := 60 / m.tempo
    let elapsed := hitTime - m.beatStartTime
    let pos := elapsed / beatDuration
    max 0 (1 - 2 * |pos - (round pos : ℚ)|)
  else 0

/-- C1: for every fixed tempo T in [30, 300] and time signature, each
scheduling pass runs the while-loop of `_scheduler` — while
`nextTickTime < now + scheduleAheadTime` it hands one beat for the current
beat index to `_scheduleTick`, then advances `nextTickTime` by `60/T` and the
beat index by one modulo the time signature — so the beats produced across
any sequence of passes form a single arithmetic progression: consecutive
beats' target times differ by exactly `60/T` seconds and are strictly
increasing, with the beat index cycling modulo the time signature. -/
theorem scheduler_beat_spacing (tempo : ℚ) (ts : ℕ) (nows : List ℚ) (t : ℚ) (b : ℕ)
    (h30 : 30 ≤ tempo) (h300 : tempo ≤ 300) (hb : b < ts) :
    (∃ K : ℕ, Metronome.processedRun tempo ts nows t b =
        (List.range K).map
          (fun i : ℕ => (t + (i : ℚ) * (60 / tempo), (b + i) % ts))) ∧
    (Metronome.processedRun tempo ts nows t b).Chain'
      (fun p q => q.1 - p.1 = 60 / tempo) ∧
    (Metronome.processedRun tempo ts nows t b).Pairwise (fun p q => p.1 < q.1) := by
  have htempo : (0 : ℚ) < tempo := by linarith
  have hspb : (0 : ℚ) < 60 / tempo := by positivity
  obtain ⟨K, hK⟩ := Metronome.processedRun_eq htempo nows t b hb
  have hfun : Metronome.beatAt tempo ts t b =
      fun i : ℕ => (t + (i : ℚ) * (60 / tempo), (b + i) % ts) := rfl
  refine ⟨⟨K, by rw [hK, hfun]⟩, ?_, ?_⟩
  · rw [hK, List.chain'_map]
    cases K with
    | zero => simp
    | succ n =>
      rw [List.chain'_range_succ]
      intro m _
      unfold Metronome.beatAt secondsPerBeat
      dsimp only
      push_cast
      ring
  · rw [hK, List.pairwise_map]
    refine (List.pairwise_lt_range _).imp ?_
    intro i j hij
    unfold Metronome.beatAt
    dsimp only
    have hcast : (i : ℚ) < (j : ℚ) := by exact_mod_cast hij
    have := mul_lt_mul_of_pos_right hcast
      (show (0 : ℚ) < secondsPerBeat tempo from hspb)
    linarith

/-- Witness for C1 at tempo 120, time signature 4, a single pass at clock
time 1/2 from `nextTickTime = 0`, `currentBeat = 0`. -/
theorem scheduler_beat_spacing_witness :
    ((30 : ℚ) ≤ 120 ∧ (120 : ℚ) ≤ 300 ∧ 0 < 4) ∧
    ((∃ K : ℕ, Metronome.processedRun 120 4 [1/2] 0 0 =
        (List.range K).map
          (fun i : ℕ => ((0 : ℚ) + (i : ℚ) * (60 / 120), (0 + i) % 4))) ∧
      (Metronome.processedRun 120 4 [1/2] 0 0).Chain'
        (fun p q => q.1 - p.1 = 60 / 120) ∧
      (Metronome.processedRun 120 4 [1/2] 0 0).Pairwise (fun p q => p.1 < q.1)) :=
  ⟨⟨by norm_num, by norm_num, by norm_num⟩,
    scheduler_beat_spacing 120 4 [1/2] 0 0 (by norm_num) (by norm_num) (by norm_num)⟩

/-- C3: `getHitAccuracy(hitTime)` returns 0 when the metronome is not
running; otherwise it equals the specification formula
`max 0 (1 - 2*|elapsed/beatDuration - round (elapsed/beatDuration)|)` with
`beatDuration = 60/tempo` and `elapsed = hitTime - measureStartTime`; in
particular a hit exactly on a beat boundary scores 1, a hit exactly halfway
between beats scores 0, and a hit 0.05 s after the measure start at tempo 120
(beat duration 0.5 s) scores 0.8. -/
theorem getHitAccuracy_spec (m : MState) (hitTime : ℚ) :
    (m.isPlaying = false → Metronome.getHitAccuracy m hitTime = 0) ∧
    Metronome.getHitAccuracy m hitTime = specHitAccuracy m hitTime ∧
    (0 < m.tempo → m.isPlaying = true →
      (∀ n : ℤ, hitTime = m.beatStartTime + (n : ℚ) * (60 / m.tempo) →
        Metronome.getHitAccuracy m hitTime = 1) ∧
      (∀ n : ℤ, hitTime = m.beatStartTime + ((n : ℚ) + 1/2) * (60 / m.tempo) →
        Metronome.getHitAccuracy m hitTime = 0)) ∧
    (m.tempo = 120 → m.isPlaying = true → hitTime = m.beatStartTime + 1/20 →
      Metronome.getHitAccuracy m hitTime = 4/5) := by
  refine ⟨?_, ?_, ?_, ?_⟩
  · intro h
    simp [Metronome.getHitAccuracy, h]
  · unfold Metronome.getHitAccuracy specHitAccuracy
    cases hp : m.isPlaying <;> simp [mul_comm]
  · intro htempo hp
    have hbd : (60 / m.tempo : ℚ) ≠ 0 := by positivity
    constructor
    · intro n hn
      have hpos : (hitTime - m.beatStartTime) / (60 / m.tempo) = (n : ℚ) := by
        rw [hn]
        field_simp
        ring
      simp only [Metronome.getHitAccuracy, hp, Bool.not_true, Bool.false_eq_true,
        if_false, hpos]
      rw [round_intCast]
      simp
    · intro n hn
      have hpos : (hitTime - m.beatStartTime) / (60 / m.tempo) = (n : ℚ) + 1/2 := by
        rw [hn]
        field_simp
        ring
      have hround : round ((n : ℚ) + 1/2) = n + 1 := by
        rw [round_eq, show (n : ℚ) + 1/2 + 1/2 = ((n + 1 : ℤ) : ℚ) by push_cast; ring,
          Int.floor_intCast]
      simp only [Metronome.getHitAccuracy, hp, Bool.not_true, Bool.false_eq_true,
        if_false, hpos, hround]
      push_cast
      rw [show (n : ℚ) + 1/2 - (n + 1) = -(1/2) by ring, abs_neg,
        abs_of_pos (by norm_num : (0 : ℚ) < 1/2)]
      norm_num
  · intro ht hp hn
    have hpos : (hitTime - m.beatStartTime) / (60 / m.tempo) = 1/10 := by
      rw [hn, ht]
      norm_num
    have hround : round ((1 : ℚ)/10) = 0 := by
      rw [round_eq, show (1 : ℚ)/10 + 1/2 = 3/5 by norm_num]
      have hfl : ⌊(3 : ℚ)/5⌋ = 0 := by
        rw [Int.floor_eq_iff] <;> norm_num
      exact hfl
    simp only [Metronome.getHitAccuracy, hp, Bool.not_true, Bool.false_eq_true,
      if_false, hpos, hround]
    rw [show |((1 : ℚ)/10) - ((0 : ℤ) : ℚ)| = 1/10 by
      rw [abs_of_pos] <;> norm_num]
    norm_num

/-- Witness for C3: a running metronome at tempo 120 started at clock 0, hit
at 0.05 s, scores 0.8. -/
theorem getHitAccuracy_spec_witness :
    Metronome.getHitAccuracy
      { tempo := 120, timeSignature := 4, isPlaying := true, nextTickTime := 0,
        currentBeat := 0, scheduledTicks := [], timerOn := true,
        beatStartTime := 0 } (1/20) = 4/5 :=
  (getHitAccuracy_spec
      { tempo := 120, timeSignature := 4, isPlaying := true, nextTickTime := 0,
        currentBeat := 0, scheduledTicks := [], timerOn := true,
        beatStartTime := 0 } (1/20)).2.2.2 rfl rfl (by norm_num)

/-- C10: `getHitAccuracy` is pure: it leaves the whole configuration — the
metronome fields and the pending-dispatch bookkeeping — unchanged, a repeated
call from the resulting state returns the same answer, and the returned score
is the scoring function of the state. -/
theorem getHitAccuracyRun_pure (c : Config) (hitTime : ℚ) :
    (Metronome.getHitAccuracyRun c hitTime).2 = c ∧
    Metronome.getHitAccuracyRun ((Metronome.getHitAccuracyRun c hitTime).2) hitTime =
      Metronome.getHitAccuracyRun c hitTime ∧
    (Metronome.getHitAccuracyRun c hitTime).1 = Metronome.getHitAccuracy c.m hitTime := by
  have hframe : (Metronome.getHitAccuracyRun c hitTime).2 = c := by
    unfold Metronome.getHitAccuracyRun
    by_cases h : c.m.isPlaying <;> simp [h]
  refine ⟨hframe, by rw [hframe], ?_⟩
  unfold Metronome.getHitAccuracyRun Metronome.getHitAccuracy
  by_cases h : c.m.isPlaying <;> simp [h]

/-- stoppedClosedConfig is a stopped metronome whose audio context has been
closed. -/
def stoppedClosedConfig : Config :=
  { m := { tempo := 120, timeSignature := 4, isPlaying := false, nextTickTime := 0,
           currentBeat := 0, scheduledTicks := [], timerOn := false,
           beatStartTime := 0 }
    armed := []
    nextId := 0
    ctxClosed := true }

/-- runningConfig is a playing metronome at tempo 120, time signature 4,
right after `start(false)` at clock 0. -/
def runningConfig : Config :=
  { m := { tempo := 120, timeSignature := 4, isPlaying := true, nextTickTime := 0,
           currentBeat := 0, scheduledTicks := [], timerOn := true,
           beatStartTime := 0 }
    armed := []
    nextId := 0
    ctxClosed := false }

/-- C6: starting from a Stopped state whose clock source is unavailable
(audio context closed), `start()` raises the engine-not-ready error to the
caller before mutating anything, so the configuration — playback state,
timer, `nextTickTime`, `currentBeat`, pending dispatches — is left fully
unchanged. -/
theorem start_engineNotReady (c : Config) (now : ℚ) (delayFirstBeat : Bool)
    (hstopped : c.m.isPlaying = false) (hclosed : c.ctxClosed = true) :
    Metronome.start now delayFirstBeat c = .error .engineNotReady ∧
    Metronome.step (.startEv now delayFirstBeat) c = (c, []) := by
  have h1 : Metronome.start now delayFirstBeat c = .error .engineNotReady := by
    unfold Metronome.start
    simp [hstopped, hclosed]
  refine ⟨h1, ?_⟩
  simp only [Metronome.step, h1]

/-- Witness for C6: a stopped configuration with a closed audio context. -/
theorem start_engineNotReady_witness :
    Metronome.start 0 true stoppedClosedConfig = .error .engineNotReady ∧
    Metronome.step (.startEv 0 true) stoppedClosedConfig = (stoppedClosedConfig, []) :=
  start_engineNotReady stoppedClosedConfig 0 true rfl rfl

/-- C9: `stop()` on a Stopped metronome is a no-op that changes no state and
raises nothing (so `stop();stop()` equals `stop()` from any state), and
`start()` while already Running is a no-op that changes no state and emits
nothing. -/
theorem stop_start_idempotent (c : Config) (now : ℚ) (delayFirstBeat : Bool) :
    Metronome.stop (Metronome.stop c) = Metronome.stop c ∧
    (c.m.isPlaying = false → Metronome.stop c = c) ∧
    (c.m.isPlaying = true →
      Metronome.start now delayFirstBeat c = .ok (c, [])) := by
  have hnoop : ∀ d : Config, d.m.isPlaying = false → Metronome.stop d = d := by
    intro d hd
    unfold Metronome.stop
    simp [hd]
  refine ⟨?_, hnoop c, ?_⟩
  · by_cases h : c.m.isPlaying
    · have h2 : (Metronome.stop c).m.isPlaying = false := by
        unfold Metronome.stop
        simp [h]
      exact hnoop _ h2
    · have hc := hnoop c (by simpa using h)
      rw [hc]
      exact hc
  · intro h
    unfold Metronome.start
    simp [h]

/-- Witness for C9: the no-op cases at concrete configurations — a second
`stop()` on the stopped configuration and a `start()` on the running one. -/
theorem stop_start_idempotent_witness :
    Metronome.stop stoppedClosedConfig = stoppedClosedConfig ∧
    Metronome.start 0 true runningConfig = .ok (runningConfig, []) :=
  ⟨(stop_start_idempotent stoppedClosedConfig 0 true).2.1 rfl,
    (stop_start_idempotent runningConfig 0 true).2.2 rfl⟩

namespace Metronome

lemma dispatchAll_outs (now : ℚ) :
    ∀ (ps : List (ℚ × ℕ)) (c : Config),
      (dispatchAll now ps c).2 =
        ps.filterMap (fun p =>
          if 0 < p.1 - now then
            some (Out.beatScheduled (p.2 + 1) (p.2 == 0) p.1)
          else none) := by
  intro ps
  induction ps with
  | nil => intro c; simp [dispatchAll]
  | cons p ps ih =>
    intro c
    unfold dispatchAll scheduleTick
    by_cases h : now < p.1 <;>
      simp [sub_pos, h, ih, List.filterMap_cons]

lemma scheduler_one_arm (c : Config) (now : ℚ)
    (htimer : c.m.timerOn = true) (htempo : 0 < c.m.tempo)
    (h1 : now < c.m.nextTickTime)
    (h2 : c.m.nextTickTime < now + scheduleAheadTime)
    (h3 : ¬ c.m.nextTickTime + secondsPerBeat c.m.tempo < now + scheduleAheadTime) :
    scheduler now c =
      ({ c with
          m := { c.m with
                  nextTickTime := c.m.nextTickTime + secondsPerBeat c.m.tempo
                  currentBeat := (c.m.currentBeat + 1) % c.m.timeSignature
                  scheduledTicks := evict (c.m.scheduledTicks ++ [c.nextId]) }
          armed := c.armed ++ [⟨c.nextId, c.m.currentBeat, c.m.nextTickTime⟩]
          nextId := c.nextId + 1 },
       [Out.beatScheduled (c.m.currentBeat + 1) (c.m.currentBeat == 0)
          c.m.nextTickTime]) := by
  unfold scheduler
  rw [if_pos (by simp [htimer]), passCore_succ htempo h2, passCore_of_not_lt h3]
  simp only [dispatchAll, scheduleTick]
  rw [if_pos (by linarith : (0 : ℚ) < c.m.nextTickTime - now)]
  simp

lemma scheduler_one_drop (c : Config) (now : ℚ)
    (htimer : c.m.timerOn = true) (htempo : 0 < c.m.tempo)
    (h1 : c.m.nextTickTime ≤ now)
    (h2 : c.m.nextTickTime < now + scheduleAheadTime)
    (h3 : ¬ c.m.nextTickTime + secondsPerBeat c.m.tempo < now + scheduleAheadTime) :
    scheduler now c =
      ({ c with
          m := { c.m with
                  nextTickTime := c.m.nextTickTime + secondsPerBeat c.m.tempo
                  currentBeat := (c.m.currentBeat + 1) % c.m.timeSignature } },
       []) := by
  unfold scheduler
  rw [if_pos (by simp [htimer]), passCore_succ htempo h2, passCore_of_not_lt h3]
  simp only [dispatchAll, scheduleTick]
  rw [if_neg (by linarith : ¬ (0 : ℚ) < c.m.nextTickTime - now)]
  simp

end Metronome

/-- C4 (amended): every beat generated by a scheduling pass whose
`targetTime` is strictly in the future of the pass's clock time gets
`onBeatScheduled(beatNumber, isDownbeat, targetTime)` emitted synchronously
during that pass, in generation order; a generated beat whose `targetTime`
is at or before the clock time emits nothing (it is silently dropped). -/
theorem scheduler_emits_future (now : ℚ) (c : Config) (htimer : c.m.timerOn = true) :
    (Metronome.scheduler now c).2 =
      (Metronome.passCore c.m.tempo c.m.timeSignature now
          c.m.nextTickTime c.m.currentBeat).2.2.filterMap
        (fun p =>
          if 0 < p.1 - now then
            some (Out.beatScheduled (p.2 + 1) (p.2 == 0) p.1)
          else none) := by
  unfold Metronome.scheduler
  rw [if_pos (by simp [htimer])]
  exact Metronome.dispatchAll_outs now _ _

/-- Witness for C4's amended theorem: one pass of the running configuration
at clock time 0. -/
theorem scheduler_emits_future_witness :
    (Metronome.scheduler 0 runningConfig).2 =
      (Metronome.passCore runningConfig.m.tempo runningConfig.m.timeSignature 0
          runningConfig.m.nextTickTime runningConfig.m.currentBeat).2.2.filterMap
        (fun p =>
          if 0 < p.1 - (0 : ℚ) then
            some (Out.beatScheduled (p.2 + 1) (p.2 == 0) p.1)
          else none) :=
  scheduler_emits_future 0 runningConfig rfl

/-- Counterexample for C4 as stated: at clock time 1/20 the pass over the
running configuration generates the beat `(0, 0)` (target time 0, beat
index 0), yet emits no `onBeatScheduled` at all, because the beat's target
time is not strictly in the future — emission is not independent of how far
`targetTime` is from the clock. -/
theorem scheduler_drops_past_beat :
    (Metronome.passCore 120 4 (1/20) 0 0).2.2 = [(0, 0)] ∧
    (Metronome.scheduler (1/20) runningConfig).2 = [] := by
  have hpass : Metronome.passCore 120 4 (1/20) 0 0 = (1/2, 1, [(0, 0)]) := by
    rw [Metronome.passCore_succ (by norm_num)
      (by norm_num [WebMIDIKit.scheduleAheadTime])]
    rw [Metronome.passCore_of_not_lt
      (by norm_num [WebMIDIKit.secondsPerBeat, WebMIDIKit.scheduleAheadTime])]
    norm_num [WebMIDIKit.secondsPerBeat]
  refine ⟨by rw [hpass], ?_⟩
  rw [scheduler_emits_future (1/20) runningConfig rfl]
  have hfields : runningConfig.m.tempo = 120 ∧ runningConfig.m.timeSignature = 4 ∧
      runningConfig.m.nextTickTime = 0 ∧ runningConfig.m.currentBeat = 0 :=
    ⟨rfl, rfl, rfl, rfl⟩
  rw [hfields.1, hfields.2.1, hfields.2.2.1, hfields.2.2.2, hpass]
  norm_num

/-- midConfig is a playing metronome at tempo 120, time signature 4, midway
through a measure (`currentBeat = 2`), whose next beat is due at clock 1/2. -/
def midConfig : Config :=
  { m := { tempo := 120, timeSignature := 4, isPlaying := true, nextTickTime := 1/2,
           currentBeat := 2, scheduledTicks := [], timerOn := true,
           beatStartTime := 0 }
    armed := []
    nextId := 0
    ctxClosed := false }

/-- C7 (amended): after `setTimeSignature(k)` the beat counter is reset to 0,
so the next beat emitted by a scheduling pass is beat 1, a downbeat —
provided the pending `nextTickTime` is strictly in the future at that pass
(otherwise the reset downbeat is silently dropped as late and the first
emitted beat is a later one). -/
theorem setTimeSignature_next_beat (c : Config) (k : ℕ) (now : ℚ)
    (htimer : c.m.timerOn = true) (htempo : 0 < c.m.tempo)
    (h1 : now < c.m.nextTickTime)
    (h2 : c.m.nextTickTime < now + scheduleAheadTime) :
    (Metronome.scheduler now (Metronome.setTimeSignature k c)).2.head? =
      some (Out.beatScheduled 1 true c.m.nextTickTime) := by
  rw [scheduler_emits_future now _ (by simpa [Metronome.setTimeSignature] using htimer)]
  have hts : (Metronome.setTimeSignature k c).m.tempo = c.m.tempo ∧
      (Metronome.setTimeSignature k c).m.timeSignature = k ∧
      (Metronome.setTimeSignature k c).m.nextTickTime = c.m.nextTickTime ∧
      (Metronome.setTimeSignature k c).m.currentBeat = 0 := ⟨rfl, rfl, rfl, rfl⟩
  rw [hts.1, hts.2.1, hts.2.2.1, hts.2.2.2, Metronome.passCore_succ htempo h2]
  simp [List.filterMap_cons, sub_pos, h1]

/-- Witness for C7's amended theorem: `setTimeSignature(3)` on `midConfig`
followed by a pass at clock 9/20 emits beat 1, downbeat, at target time 1/2. -/
theorem setTimeSignature_next_beat_witness :
    (Metronome.scheduler (9/20) (Metronome.setTimeSignature 3 midConfig)).2.head? =
      some (Out.beatScheduled 1 true (1/2)) :=
  setTimeSignature_next_beat midConfig 3 (9/20) rfl (by norm_num [midConfig])
    (by norm_num [midConfig]) (by norm_num [midConfig, scheduleAheadTime])

/-- lateConfig is a playing metronome at tempo 120, time signature 4, midway
through a measure, whose next beat is due at clock 0 (the scheduler has not
yet caught up). -/
def lateConfig : Config :=
  { m := { tempo := 120, timeSignature := 4, isPlaying := true, nextTickTime := 0,
           currentBeat := 2, scheduledTicks := [], timerOn := true,
           beatStartTime := 0 }
    armed := []
    nextId := 0
    ctxClosed := false }

/-- Counterexample for C7 as stated: from `lateConfig`, `setTimeSignature(3)`
resets the beat counter, but the reset downbeat (target time 0) is already in
the past at the next pass (clock 1/20) and is silently dropped, so the next
Beat actually emitted — by the following pass at clock 9/20 — is beat 2 with
`isDownbeat = false`, not beat 1. -/
theorem setTimeSignature_dropped_downbeat :
    (Metronome.run [.pass (1/20), .pass (9/20)]
        (Metronome.setTimeSignature 3 lateConfig)).2 =
      [Out.beatScheduled 2 false (1/2)] := by
  simp only [Metronome.run, Metronome.step]
  rw [Metronome.scheduler_one_drop (Metronome.setTimeSignature 3 lateConfig) (1/20)
    rfl (by norm_num [Metronome.setTimeSignature, lateConfig])
    (by norm_num [Metronome.setTimeSignature, lateConfig])
    (by norm_num [Metronome.setTimeSignature, lateConfig, scheduleAheadTime])
    (by norm_num [Metronome.setTimeSignature, lateConfig, scheduleAheadTime,
      secondsPerBeat])]
  rw [Metronome.scheduler_one_arm _ (9/20)
    rfl (by norm_num [Metronome.setTimeSignature, lateConfig])
    (by norm_num [Metronome.setTimeSignature, lateConfig, secondsPerBeat])
    (by norm_num [Metronome.setTimeSignature, lateConfig, scheduleAheadTime,
      secondsPerBeat])
    (by norm_num [Metronome.setTimeSignature, lateConfig, scheduleAheadTime,
      secondsPerBeat])]
  norm_num [Metronome.setTimeSignature, lateConfig, secondsPerBeat]

/-- C5 (code bug): the very first BeatMarker after a (re)start is created at
the hit line (x = 80), but `addBeatMarker` clears the `firstBeat` flag at
creation, so the very next frame's `updateBeatMarkers` interpolates it like
any other marker: at clock 0.1 (canvas width 400, tempo 120) its x jumps from
80 to 336, contradicting the pinned-anchor invariant stated by the spec and
by the code's own comment in `updateBeatMarkers`. -/
theorem firstBeatMarker_not_pinned :
    ((MetronomeUI.addBeatMarker 0 1 true
        (MetronomeUI.resetVisualization true (MetronomeUI.initUI 400))).beatMarkers.map
      (fun mk => mk.x)) = [80] ∧
    ((MetronomeUI.updateBeatMarkers (1/10)
        (MetronomeUI.addBeatMarker 0 1 true
          (MetronomeUI.resetVisualization true (MetronomeUI.initUI 400)))).beatMarkers.map
      (fun mk => mk.x)) = [336] ∧ (336 : ℚ) ≠ 80 := by
  refine ⟨?_, ?_, by norm_num⟩ <;>
    norm_num [MetronomeUI.initUI, MetronomeUI.resetVisualization,
      MetronomeUI.updateMarkerSpeed, MetronomeUI.addBeatMarker,
      MetronomeUI.updateBeatMarkers, List.filter_cons]

/-- uiHit is a visualization state right after a tempo change to 120 on a
400-wide canvas and a perfectly accurate note hit: one hit marker at the hit
line with full opacity. -/
def uiHit : UIState :=
  MetronomeUI.registerNoteHit 1 (MetronomeUI.handleTempoChange 120 (MetronomeUI.initUI 400))

/-- C8 (amended): each frame, every surviving hit marker has moved left by
exactly the current `markerSpeed` — which `handleTempoChange` recalibrates to
`(width - hitLineX) * clampedTempo / 3600`, a tempo-dependent value — with
its opacity lowered by 1/100 (clamped at 0), and markers are kept only while
on-screen (x > -30) and not fully faded (opacity > 0). -/
theorem updateHitMarkers_spec (u : UIState) (tempo : ℚ) :
    (∀ mk2 ∈ (MetronomeUI.updateHitMarkers u).hitMarkers,
      ∃ mk ∈ u.hitMarkers,
        mk2.x = mk.x - u.markerSpeed ∧
        mk2.accuracy = mk.accuracy ∧
        mk2.opacity = max 0 (mk.opacity - 1/100) ∧
        -30 < mk2.x ∧ 0 < mk2.opacity) ∧
    (MetronomeUI.handleTempoChange tempo u).markerSpeed =
      (u.width - u.hitLineX) * min 240 (max 40 tempo) / 3600 := by
  have hmax : ∀ a : ℚ, (if a < 0 then (0 : ℚ) else a) = max 0 a := by
    intro a
    rcases lt_or_le a 0 with h | h
    · rw [if_pos h, max_eq_left h.le]
    · rw [if_neg (not_lt.mpr h), max_eq_right h]
  constructor
  · intro mk2 hmem
    unfold MetronomeUI.updateHitMarkers at hmem
    simp only [List.mem_filter, List.mem_map] at hmem
    obtain ⟨⟨mk, hmk, hstep⟩, hkeep⟩ := hmem
    refine ⟨mk, hmk, ?_, ?_, ?_, ?_, ?_⟩
    · rw [← hstep]
    · rw [← hstep]
    · rw [← hstep]
      exact hmax _
    · have := (Bool.and_eq_true _ _).mp hkeep
      simpa using this.1
    · have := (Bool.and_eq_true _ _).mp hkeep
      simpa using this.2
  · unfold MetronomeUI.handleTempoChange MetronomeUI.updateMarkerSpeed
    dsimp only
    rw [show (60 / min 240 (max 40 tempo)) * 60 = 3600 / min 240 (max 40 tempo) by
      ring, div_div_eq_mul_div]

/-- Witness for C8's amended theorem at `uiHit`: the surviving marker moved
by the recalibrated speed, and a further tempo change to 240 yields the
tempo-dependent speed formula. -/
theorem updateHitMarkers_spec_witness :
    (∃ mk ∈ uiHit.hitMarkers,
      (⟨208/3, 1, 99/100⟩ : HitMarker).x = mk.x - uiHit.markerSpeed ∧
      (⟨208/3, 1, 99/100⟩ : HitMarker).accuracy = mk.accuracy ∧
      (⟨208/3, 1, 99/100⟩ : HitMarker).opacity = max 0 (mk.opacity - 1/100) ∧
      -30 < (⟨208/3, 1, 99/100⟩ : HitMarker).x ∧
      0 < (⟨208/3, 1, 99/100⟩ : HitMarker).opacity) ∧
    (MetronomeUI.handleTempoChange 240 uiHit).markerSpeed =
      (uiHit.width - uiHit.hitLineX) * min 240 (max 40 240) / 3600 := by
  have hlist : (MetronomeUI.updateHitMarkers uiHit).hitMarkers =
      [⟨208/3, 1, 99/100⟩] := by
    norm_num [uiHit, MetronomeUI.registerNoteHit, MetronomeUI.handleTempoChange,
      MetronomeUI.updateMarkerSpeed, MetronomeUI.initUI,
      MetronomeUI.updateHitMarkers, List.filter_cons]
  exact ⟨(updateHitMarkers_spec uiHit 240).1 ⟨208/3, 1, 99/100⟩
      (hlist ▸ List.mem_singleton.mpr rfl),
    (updateHitMarkers_spec uiHit 240).2⟩

/-- Counterexample for C8 as stated: starting from the same visualization
state, the per-frame displacement of a hit marker differs between tempo 120
(speed 32/3, marker moves to x = 208/3) and tempo 240 (speed 64/3, marker
moves to x = 176/3): hit-marker speed is not independent of the current
tempo, because hit markers use the same `markerSpeed` field that tempo
changes recalibrate. -/
theorem hitMarker_speed_depends_on_tempo :
    ((MetronomeUI.updateHitMarkers
        (MetronomeUI.registerNoteHit 1
          (MetronomeUI.handleTempoChange 120 (MetronomeUI.initUI 400)))).hitMarkers.map
      (fun mk => mk.x)) = [208/3] ∧
    ((MetronomeUI.updateHitMarkers
        (MetronomeUI.registerNoteHit 1
          (MetronomeUI.handleTempoChange 240 (MetronomeUI.initUI 400)))).hitMarkers.map
      (fun mk => mk.x)) = [176/3] ∧ (208/3 : ℚ) ≠ 176/3 := by
  refine ⟨?_, ?_, by norm_num⟩ <;>
    norm_num [MetronomeUI.initUI, MetronomeUI.handleTempoChange,
      MetronomeUI.updateMarkerSpeed, MetronomeUI.registerNoteHit,
      MetronomeUI.updateHitMarkers, List.filter_cons]

namespace Metronome

/-- TickInv: every armed timer handle and every tracked handle is below the
fresh-handle counter (handles are never reused). -/
def TickInv (c : Config) : Prop :=
  (∀ t ∈ c.armed, t.id < c.nextId) ∧ ∀ i ∈ c.m.scheduledTicks, i < c.nextId

lemma dispatchAll_frame (now : ℚ) :
    ∀ (ps : List (ℚ × ℕ)) (c : Config),
      (∀ t ∈ (dispatchAll now ps c).1.armed, t ∈ c.armed ∨ c.nextId ≤ t.id) ∧
      c.nextId ≤ (dispatchAll now ps c).1.nextId ∧
      firedIds (dispatchAll now ps c).2 = [] := by
  intro ps
  induction ps with
  | nil =>
    intro c
    exact ⟨fun t ht => Or.inl ht, le_refl _, rfl⟩
  | cons p ps ih =>
    intro c
    simp only [dispatchAll, scheduleTick]
    by_cases h : 0 < p.1 - now
    · rw [if_pos h]
      obtain ⟨ha, hn, hf⟩ := ih
        { c with
            m := { c.m with scheduledTicks := evict (c.m.scheduledTicks ++ [c.nextId]) }
            armed := c.armed ++ [⟨c.nextId, p.2, p.1⟩]
            nextId := c.nextId + 1 }
      dsimp only at ha hn hf ⊢
      refine ⟨?_, ?_, ?_⟩
      · intro t ht
        rcases ha t ht with hin | hge
        · simp only [List.mem_append, List.mem_singleton] at hin
          rcases hin with hin | rfl
          · exact Or.inl hin
          · exact Or.inr (le_refl _)
        · exact Or.inr (by omega)
      · omega
      · simp [firedIds, List.filterMap_cons] at hf ⊢
        exact hf
    · rw [if_neg h]
      exact ih c

lemma step_no_refire (tid : ℕ) (e : Ev) (c : Config)
    (h1 : ∀ t ∈ c.armed, t.id ≠ tid) (h2 : tid < c.nextId) :
    (∀ t ∈ (step e c).1.armed, t.id ≠ tid) ∧ tid < (step e c).1.nextId ∧
      tid ∉ firedIds (step e c).2 := by
  cases e with
  | pass now =>
    simp only [step, scheduler]
    by_cases htimer : c.m.timerOn
    · rw [if_pos (by simp [htimer])]
      obtain ⟨ha, hn, hf⟩ := dispatchAll_frame now
        (passCore c.m.tempo c.m.timeSignature now c.m.nextTickTime c.m.currentBeat).2.2
        { c with m := { c.m with
            nextTickTime := (passCore c.m.tempo c.m.timeSignature now
              c.m.nextTickTime c.m.currentBeat).1
            currentBeat := (passCore c.m.tempo c.m.timeSignature now
              c.m.nextTickTime c.m.currentBeat).2.1 } }
      dsimp only at ha hn hf ⊢
      refine ⟨?_, by omega, by rw [hf]; exact List.not_mem_nil tid⟩
      intro t ht
      rcases ha t ht with hin | hge
      · exact h1 t hin
      · omega
    · rw [if_neg (by simp [htimer])]
      exact ⟨h1, h2, List.not_mem_nil tid⟩
  | fire tid2 now =>
    simp only [step, fireTick]
    cases hfind : c.armed.find? (fun t => t.id == tid2) with
    | none => exact ⟨h1, h2, List.not_mem_nil tid⟩
    | some t =>
      dsimp only
      by_cases hdue : t.time ≤ now
      · rw [if_pos hdue]
        refine ⟨?_, h2, ?_⟩
        · intro u hu
          exact h1 u (List.mem_of_mem_filter hu)
        · have htmem : t ∈ c.armed := List.mem_of_find?_eq_some hfind
          simp [firedIds, List.filterMap_cons]
          exact fun h => h1 t htmem h.symm
      · rw [if_neg hdue]
        exact ⟨h1, h2, List.not_mem_nil tid⟩
  | stopEv =>
    simp only [step, stop]
    by_cases hp : !c.m.isPlaying
    · rw [if_pos hp]
      exact ⟨h1, h2, List.not_mem_nil tid⟩
    · rw [if_neg hp]
      refine ⟨?_, h2, List.not_mem_nil tid⟩
      intro u hu
      exact h1 u (List.mem_of_mem_filter hu)
  | startEv now d =>
    simp only [step, start]
    by_cases hp : c.m.isPlaying
    · rw [if_pos hp]
      exact ⟨h1, h2, List.not_mem_nil tid⟩
    · rw [if_neg hp]
      by_cases hc : c.ctxClosed
      · rw [if_pos hc]
        exact ⟨h1, h2, List.not_mem_nil tid⟩
      · rw [if_neg hc]
        by_cases hd : d
        · rw [if_pos hd]
          exact ⟨h1, h2, by simp [firedIds]⟩
        · rw [if_neg hd]
          exact ⟨h1, h2, List.not_mem_nil tid⟩
  | setTempoEv bpm => exact ⟨h1, h2, List.not_mem_nil tid⟩
  | setTimeSigEv k => exact ⟨h1, h2, List.not_mem_nil tid⟩

lemma run_no_refire (tid : ℕ) :
    ∀ (es : List Ev) (c : Config),
      (∀ t ∈ c.armed, t.id ≠ tid) → tid < c.nextId →
      tid ∉ firedIds (run es c).2 := by
  intro es
  induction es with
  | nil => intro c _ _; exact List.not_mem_nil tid
  | cons e es ih =>
    intro c h1 h2
    obtain ⟨h1s, h2s, h3s⟩ := step_no_refire tid e c h1 h2
    simp only [run, firedIds, List.filterMap_append, List.mem_append]
    push_neg
    exact ⟨h3s, ih (step e c).1 h1s h2s⟩

end Metronome

/-- C2 (amended): when `stop()` is called on a running metronome, every
pending delayed dispatch whose handle is still recorded in `scheduledTicks`
is cancelled, and its `onTick` never fires in any sequence of later events —
handles evicted from the bounded (cap 20) bookkeeping list are not covered.
In particular a single pending beat (e.g. `stop()` at t = 0.3 s with the beat
due at t = 0.5 s) never fires after `stop()` returns. -/
theorem stop_cancels_tracked (c : Config) (tid : ℕ) (es : List Metronome.Ev)
    (hplaying : c.m.isPlaying = true) (hinv : Metronome.TickInv c)
    (hmem : tid ∈ c.m.scheduledTicks) :
    tid ∉ Metronome.firedIds (Metronome.run es (Metronome.stop c)).2 := by
  have hstop : Metronome.stop c =
      { c with
          m := { c.m with
                  isPlaying := false
                  currentBeat := 0
                  timerOn := false
                  scheduledTicks := [] }
          armed := c.armed.filter (fun t => decide (t.id ∉ c.m.scheduledTicks)) } := by
    unfold Metronome.stop
    rw [if_neg (by simp [hplaying])]
  apply Metronome.run_no_refire
  · intro t ht
    rw [hstop] at ht
    have := List.of_mem_filter ht
    simp only [decide_eq_true_eq] at this
    intro heq
    exact this (heq ▸ hmem)
  · rw [hstop]
    exact hinv.2 tid hmem

/-- pendingConfig is a running metronome with one pending tick: beat 1
(downbeat) due at clock 1/2, handle 0 armed and tracked. -/
def pendingConfig : Config :=
  { m := { tempo := 120, timeSignature := 4, isPlaying := true, nextTickTime := 1/2,
           currentBeat := 1, scheduledTicks := [0], timerOn := true,
           beatStartTime := 0 }
    armed := [⟨0, 0, 1/2⟩]
    nextId := 1
    ctxClosed := false }

/-- Witness for C2's amended theorem: stopping `pendingConfig` (a pending
beat due at 0.5 s) and then letting the runtime attempt the dispatch at
clock 1 never fires `onTick` for handle 0. -/
theorem stop_cancels_tracked_witness :
    (0 : ℕ) ∉ Metronome.firedIds
      (Metronome.run [.fire 0 1] (Metronome.stop pendingConfig)).2 :=
  stop_cancels_tracked pendingConfig 0 [.fire 0 1] rfl
    ⟨by decide, by decide⟩ (by decide)

/-- c2Init is a freshly constructed metronome at tempo 300 (one beat every
0.2 s), not yet started. -/
def c2Init : Config :=
  { m := { tempo := 300, timeSignature := 4, isPlaying := false, nextTickTime := 0,
           currentBeat := 0, scheduledTicks := [], timerOn := false,
           beatStartTime := 0 }
    armed := []
    nextId := 0
    ctxClosed := false }

/-- c2After gives the configuration of the tempo-300 run after `start(true)`
at clock 0 followed by `n` scheduler passes, the k-th at clock
`(k+1)/5 - 1/20`: each pass arms one tick (handle `k`, due `(k+1)/5`), and
the bookkeeping list keeps only the most recent 20 handles. -/
def c2After (n : ℕ) : Config :=
  { m := { tempo := 300, timeSignature := 4, isPlaying := true,
           nextTickTime := ((n : ℚ) + 1) / 5, currentBeat := n % 4,
           scheduledTicks := (List.range n).drop (n - 20), timerOn := true,
           beatStartTime := 0 }
    armed := (List.range n).map (fun i => ⟨i, i % 4, ((i : ℚ) + 1) / 5⟩)
    nextId := n
    ctxClosed := false }

/-- passEvs lists the `n` scheduler passes of the tempo-300 run, the k-th at
clock `(k+1)/5 - 1/20`. -/
def passEvs (n : ℕ) : List Metronome.Ev :=
  (List.range n).map (fun k : ℕ => .pass (((k : ℚ) + 1) / 5 - 1/20))

namespace Metronome

lemma run_cons (e : Ev) (es : List Ev) (c : Config) :
    run (e :: es) c =
      ((run es (step e c).1).1, (step e c).2 ++ (run es (step e c).1).2) := rfl

lemma run_append :
    ∀ (es1 es2 : List Ev) (c : Config),
      run (es1 ++ es2) c =
        ((run es2 (run es1 c).1).1, (run es1 c).2 ++ (run es2 (run es1 c).1).2) := by
  intro es1
  induction es1 with
  | nil => intro es2 c; simp [run]
  | cons e es ih =>
    intro es2 c
    show run (e :: (es ++ es2)) c = _
    simp only [run]
    rw [ih]
    simp [List.append_assoc]

lemma evict_drop (n : ℕ) :
    evict ((List.range n).drop (n - 20) ++ [n]) =
      (List.range (n + 1)).drop (n + 1 - 20) := by
  have hle : n - 20 ≤ (List.range n).length := by simp
  have h1 : (List.range n).drop (n - 20) ++ [n] = (List.range (n + 1)).drop (n - 20) := by
    rw [List.range_succ, List.drop_append_of_le_length hle]
  rw [h1]
  unfold evict
  have hlen : ((List.range (n + 1)).drop (n - 20)).length = (n + 1) - (n - 20) := by
    simp
  by_cases h : 20 < ((List.range (n + 1)).drop (n - 20)).length
  · rw [if_pos h, List.tail_drop]
    rw [hlen] at h
    congr 1
    omega
  · rw [if_neg h]
    rw [hlen] at h
    congr 1
    omega

end Metronome

/-- c2_start records the effect of `start(delayFirstBeat = true)` at clock 0
on the fresh tempo-300 metronome. -/
lemma c2_start :
    Metronome.step (.startEv 0 true) c2Init =
      (c2After 0, [Out.beatScheduled 1 true (1/5)]) := by
  norm_num [Metronome.step, Metronome.start, c2Init, c2After, secondsPerBeat,
    Config.mk.injEq, MState.mk.injEq]

/-- c2_pass records the effect of the (n+1)-st scheduler pass of the
tempo-300 run: exactly one beat is in the lookahead window and strictly in
the future, so one tick (handle n, due (n+1)/5) is armed and one
`onBeatScheduled` is emitted, and the oldest tracked handle is evicted once
more than 20 are tracked. -/
lemma c2_pass (n : ℕ) :
    Metronome.step (.pass (((n : ℚ) + 1) / 5 - 1/20)) (c2After n) =
      (c2After (n + 1),
       [Out.beatScheduled (n % 4 + 1) (n % 4 == 0) (((n : ℚ) + 1) / 5)]) := by
  show Metronome.scheduler _ _ = _
  rw [Metronome.scheduler_one_arm (c2After n) _ rfl
    (by norm_num [c2After])
    (by dsimp only [c2After]; linarith)
    (by dsimp only [c2After, scheduleAheadTime]; linarith)
    (by dsimp only [c2After, scheduleAheadTime]
        rw [show secondsPerBeat 300 = 1/5 by norm_num [secondsPerBeat], not_lt]
        linarith)]
  refine congrArg₂ Prod.mk ?_ ?_
  · dsimp only [c2After]
    rw [Config.mk.injEq, MState.mk.injEq]
    refine ⟨⟨rfl, rfl, rfl, ?_, ?_, ?_, rfl, rfl⟩, ?_, rfl, rfl⟩
    · rw [show ((n : ℚ) + 1) / 5 + secondsPerBeat 300 = ((n : ℚ) + 1 + 1) / 5 by
        norm_num [secondsPerBeat]; ring]
      push_cast
      ring
    · rw [Nat.mod_add_mod]
    · exact Metronome.evict_drop n
    · rw [List.range_succ, List.map_append]
      rfl
  · rfl

/-- c2_run records the configuration and the emitted events after the first
`n` passes of the tempo-300 run: only `onBeatScheduled` notifications are
emitted, no `onTick` fires. -/
lemma c2_run (n : ℕ) :
    Metronome.run (passEvs n) (c2After 0) =
      (c2After n,
       (List.range n).map
         (fun i => Out.beatScheduled (i % 4 + 1) (i % 4 == 0) (((i : ℚ) + 1) / 5))) := by
  induction n with
  | zero => simp [passEvs, Metronome.run]
  | succ n ih =>
    have hsplit : passEvs (n + 1) =
        passEvs n ++ [.pass (((n : ℚ) + 1) / 5 - 1/20)] := by
      unfold passEvs
      rw [List.range_succ, List.map_append]
      rfl
    have hone : Metronome.run [.pass (((n : ℚ) + 1) / 5 - 1/20)] (c2After n) =
        (c2After (n + 1),
         [Out.beatScheduled (n % 4 + 1) (n % 4 == 0) (((n : ℚ) + 1) / 5)]) := by
      simp only [Metronome.run, c2_pass n]
      simp
    rw [hsplit, Metronome.run_append, ih]
    dsimp only
    rw [hone]
    refine congrArg₂ Prod.mk rfl ?_
    rw [List.range_succ, List.map_append]
    rfl

lemma c2_run_full :
    Metronome.run (.startEv 0 true :: passEvs 21) c2Init =
      (c2After 21,
       Out.beatScheduled 1 true (1/5) ::
         (List.range 21).map
           (fun i => Out.beatScheduled (i % 4 + 1) (i % 4 == 0) (((i : ℚ) + 1) / 5))) := by
  rw [Metronome.run_cons, c2_start]
  dsimp only
  rw [c2_run 21]
  simp

lemma c2_stop_armed :
    (Metronome.stop (c2After 21)).armed = [⟨0, 0, 1/5⟩] := by
  unfold Metronome.stop
  rw [if_neg (by decide)]
  dsimp only
  rw [show (c2After 21).armed =
      (List.range 21).map (fun i : ℕ => (⟨i, i % 4, ((i : ℚ) + 1) / 5⟩ : Tick)) from rfl]
  rw [List.filter_map]
  rw [show (List.range 21).filter
      ((fun t : Tick => decide (t.id ∉ (c2After 21).m.scheduledTicks)) ∘
        (fun i : ℕ => (⟨i, i % 4, ((i : ℚ) + 1) / 5⟩ : Tick))) = [0] by decide]
  norm_num [Tick.mk.injEq]

/-- Counterexample for C2 as stated: in the tempo-300 run (`start(true)` at
clock 0, then 21 scheduler passes), tick handle 0 (due at 0.2 s) is armed
before `stop()` and has not fired, but its handle has been evicted from
the capped `scheduledTicks` list, so `stop()` does not cancel it and its
`onTick` fires afterwards when the runtime delivers the timeout: `stop()`
does not cancel every pending delayed-dispatch handle. -/
theorem stop_misses_evicted_tick :
    (0 : ℕ) ∈ Metronome.armedIds (Metronome.run (.startEv 0 true :: passEvs 21) c2Init).1 ∧
    (0 : ℕ) ∉ (Metronome.run (.startEv 0 true :: passEvs 21) c2Init).1.m.scheduledTicks ∧
    Metronome.firedIds (Metronome.run (.startEv 0 true :: passEvs 21) c2Init).2 = [] ∧
    Metronome.firedIds
      (Metronome.run [.fire 0 5]
        (Metronome.stop (Metronome.run (.startEv 0 true :: passEvs 21) c2Init).1)).2 =
      [0] := by
  rw [c2_run_full]
  refine ⟨?_, by decide, ?_, ?_⟩
  · show (0 : ℕ) ∈ Metronome.armedIds (c2After 21)
    have harm : Metronome.armedIds (c2After 21) = List.range 21 := by
      unfold Metronome.armedIds c2After
      rw [List.map_map]
      exact List.map_id' _
    rw [harm]
    decide
  · show Metronome.firedIds (Out.beatScheduled 1 true (1/5) :: _) = []
    unfold Metronome.firedIds
    rw [List.filterMap_cons]
    dsimp only
    rw [List.filterMap_map]
    simp
  · show Metronome.firedIds (Metronome.run [.fire 0 5] (Metronome.stop (c2After 21))).2 = [0]
    simp only [Metronome.run, Metronome.step]
    unfold Metronome.fireTick
    rw [c2_stop_armed]
    rw [show List.find? (fun t : Tick => t.id == 0) [⟨0, 0, 1/5⟩] =
        some ⟨0, 0, 1/5⟩ from rfl]
    dsimp only
    rw [if_pos (by norm_num : (1/5 : ℚ) ≤ 5)]
    simp [Metronome.firedIds]

end WebMIDIKit
